import Mathlib

/-!
Verification development for the PolyBot-Pro copy-trading dashboard.

Shallow embedding of the core pipeline (ProxyFetch, WalletResolver,
PositionAggregator, ActivityDetector, OrderExecutor, EngineLoop) translated
from the TypeScript sources:
  * `src/unnamed/part_005` (polymarketApi: fetchWithProxy / isValidResponse)
  * `src/unnamed/part_003` (polymarketService: resolveTargetWallet,
    fetchActivePositions, pollRecentTrades)
  * `src/unnamed/part_004` (mempoolService: scanMempool dedup set)
  * `src/services/executionService.ts` (executeTrade)
  * `src/services/clobClient.ts` (ClobClient.signOrder)
  * `src/types.ts` (App.toggleBot engine tick, polling dedup)
  * `src/unnamed/part_001` (ConfigPanel.validatePrivateKey)

Numbers that are JavaScript `number`s in the source are modelled as `ℚ`/`ℤ`
(the concrete values appearing in the claims are exactly representable and
all arithmetic on them agrees with IEEE double evaluation).  Network calls
are modelled as explicit environments (oracles) supplying the outcome of
each attempt; `throw`/rejected promises become `Except.error`.
-/

namespace PolyBot

/-! ## JavaScript string / JSON primitives -/

/-- The opening curly brace character (written via its code point). -/
def lbraceChar : Char := Char.ofNat 123

/-- The closing curly brace character (written via its code point). -/
def rbraceChar : Char := Char.ofNat 125

/-- JSON insignificant whitespace (RFC 8259: space, tab, LF, CR). -/
def jsonWs (c : Char) : Bool :=
  c = ' ' || c = '\t' || c = '\n' || c = '\r'

/-- Drop leading JSON whitespace from a character list. -/
def skipWs : List Char → List Char
  | c :: rest => if jsonWs c then skipWs rest else c :: rest
  | [] => []

/-- JSON values as produced by `JSON.parse`.  Numbers are carried as exact
rationals (every JSON numeral denotes a decimal rational). -/
inductive Json where
  | null : Json
  | bool (b : Bool) : Json
  | num (q : ℚ) : Json
  | str (s : String) : Json
  | arr (items : List Json) : Json
  | obj (fields : List (String × Json)) : Json

/-- Property access `j.k` on a parsed JSON value: on objects the last
occurrence of a duplicated key wins (as in `JSON.parse`); on every
non-object value the access yields `undefined` (`none`). -/
def Json.getField (j : Json) (key : String) : Option Json :=
  match j with
  | .obj fields => fields.foldl (fun acc kv => if kv.1 = key then some kv.2 else acc) none
  | _ => none

/-- JavaScript truthiness of a JSON value. -/
def Json.truthy : Json → Bool
  | .null => false
  | .bool b => b
  | .num q => q ≠ 0
  | .str s => s ≠ ""
  | .arr _ => true
  | .obj _ => true

/-- Strict equality `=== n` of a JSON value against a number literal. -/
def Json.isNumEq (j : Json) (n : ℚ) : Bool :=
  match j with
  | .num q => q = n
  | _ => false

/-- Hexadecimal digit test. -/
def hexDigit (c : Char) : Bool :=
  c.isDigit || ('a' ≤ c && c ≤ 'f') || ('A' ≤ c && c ≤ 'F')

/-- Numeric value of one hex digit. -/
def hexVal (c : Char) : Nat :=
  if c.isDigit then c.toNat - 48
  else if 'a' ≤ c ∧ c ≤ 'f' then c.toNat - 87
  else c.toNat - 55

/-! ### A strict JSON parser (the `JSON.parse` grammar)

Fuel-indexed recursive-descent parsing over the character list; the fuel only
needs to dominate the input length, so `length + 1` always suffices. -/

/-- Parse a JSON string body (after the opening quote), returning the decoded
string and the rest of the input.  Fueled: one unit per consumed character
suffices. -/
def parseStringBody : Nat → List Char → Option (String × List Char)
  | 0, _ => none
  | _ + 1, [] => none
  | fuel + 1, c :: rest =>
    if c = '"' then some ("", rest)
    else if c = '\\' then
      match rest with
      | [] => none
      | e :: rest2 =>
        let cont (decoded : Char) (rem : List Char) : Option (String × List Char) :=
          match parseStringBody fuel rem with
          | some (s, r) => some (String.mk (decoded :: s.data), r)
          | none => none
        if e = '"' then cont '"' rest2
        else if e = '\\' then cont '\\' rest2
        else if e = '/' then cont '/' rest2
        else if e = 'b' then cont (Char.ofNat 8) rest2
        else if e = 'f' then cont (Char.ofNat 12) rest2
        else if e = 'n' then cont '\n' rest2
        else if e = 'r' then cont '\r' rest2
        else if e = 't' then cont '\t' rest2
        else if e = 'u' then
          match rest2 with
          | a :: b :: c3 :: d :: rest3 =>
            if hexDigit a && hexDigit b && hexDigit c3 && hexDigit d then
              cont (Char.ofNat (hexVal a * 4096 + hexVal b * 256 + hexVal c3 * 16 + hexVal d)) rest3
            else none
          | _ => none
        else none
    else if c.toNat < 32 then none
    else
      match parseStringBody fuel rest with
      | some (s, r) => some (String.mk (c :: s.data), r)
      | none => none

/-- Take a maximal run of decimal digits. -/
def takeDigits : List Char → (List Char × List Char)
  | c :: rest =>
    if c.isDigit then
      let (ds, r) := takeDigits rest
      (c :: ds, r)
    else ([], c :: rest)
  | [] => ([], [])

/-- Natural-number value of a digit run. -/
def digitsToNat (ds : List Char) : Nat :=
  ds.foldl (fun acc c => acc * 10 + (c.toNat - 48)) 0

/-- Parse a JSON numeral (`-?(0|[1-9][0-9]*)(\.[0-9]+)?([eE][+-]?[0-9]+)?`),
returning its exact rational value and the rest of the input. -/
def parseNumber (input : List Char) : Option (ℚ × List Char) :=
  let (neg, rest0) :=
    match input with
    | '-' :: r => (true, r)
    | r => (false, r)
  let (intDs, rest1) := takeDigits rest0
  match intDs with
  | [] => none
  | d0 :: ds =>
    -- a leading zero is only allowed for the single numeral "0"
    if d0 = '0' ∧ ds ≠ [] then none
    else
      let intPart : ℚ := (digitsToNat intDs : ℚ)
      let (fracPart, rest2) :=
        match rest1 with
        | '.' :: r =>
          let (fds, r2) := takeDigits r
          if fds = [] then (none, rest1)
          else (some ((digitsToNat fds : ℚ) / ((10 : ℚ) ^ fds.length)), r2)
        | r => ((some 0 : Option ℚ), r)
      match fracPart with
      | none => none
      | some fq =>
        let base : ℚ := intPart + fq
        let (expPart, rest3) :=
          match rest2 with
          | e :: r =>
            if e = 'e' ∨ e = 'E' then
              let (sign, r1) :=
                match r with
                | '+' :: rr => ((1 : Int), rr)
                | '-' :: rr => ((-1 : Int), rr)
                | rr => ((1 : Int), rr)
              let (eds, r2) := takeDigits r1
              if eds = [] then ((none : Option Int), rest2)
              else (some (sign * (digitsToNat eds : Int)), r2)
            else ((some 0 : Option Int), rest2)
          | [] => ((some 0 : Option Int), rest2)
        match expPart with
        | none => none
        | some ex =>
          let q := base * (10 : ℚ) ^ ex
          some (if neg then -q else q, rest3)

mutual

/-- Parse one JSON value; returns the value and the remaining input. -/
def parseVal : Nat → List Char → Option (Json × List Char)
  | 0, _ => none
  | fuel + 1, input =>
    match skipWs input with
    | 'n' :: 'u' :: 'l' :: 'l' :: rest => some (.null, rest)
    | 't' :: 'r' :: 'u' :: 'e' :: rest => some (.bool true, rest)
    | 'f' :: 'a' :: 'l' :: 's' :: 'e' :: rest => some (.bool false, rest)
    | '"' :: rest =>
      (match parseStringBody (rest.length + 1) rest with
       | some (s, r) => some (.str s, r)
       | none => none)
    | '[' :: rest =>
      (match skipWs rest with
       | ']' :: r => some (.arr [], r)
       | r => parseArrItems fuel r)
    | c :: rest =>
      if c = lbraceChar then
        let r := skipWs rest
        if r.head? = some rbraceChar then some (.obj [], r.tail)
        else parseObjItems fuel r
      else if c = '-' ∨ c.isDigit then
        match parseNumber (c :: rest) with
        | some (q, r) => some (.num q, r)
        | none => none
      else none
    | [] => none

/-- Parse the items of a non-empty JSON array (after `[` and leading space). -/
def parseArrItems : Nat → List Char → Option (Json × List Char)
  | 0, _ => none
  | fuel + 1, input =>
    match parseVal fuel input with
    | none => none
    | some (v, rest) =>
      match skipWs rest with
      | ',' :: r =>
        (match parseArrItems fuel (skipWs r) with
         | some (.arr vs, r2) => some (.arr (v :: vs), r2)
         | _ => none)
      | ']' :: r => some (.arr [v], r)
      | _ => none

/-- Parse the fields of a non-empty JSON object (after the opening brace and
leading space). -/
def parseObjItems : Nat → List Char → Option (Json × List Char)
  | 0, _ => none
  | fuel + 1, input =>
    match input with
    | '"' :: rest =>
      (match parseStringBody (rest.length + 1) rest with
       | none => none
       | some (k, r1) =>
         match skipWs r1 with
         | ':' :: r2 =>
           (match parseVal fuel (skipWs r2) with
            | none => none
            | some (v, r3) =>
              match skipWs r3 with
              | ',' :: r4 =>
                (match parseObjItems fuel (skipWs r4) with
                 | some (.obj fs, r5) => some (.obj ((k, v) :: fs), r5)
                 | _ => none)
              | c :: r4 =>
                if c = rbraceChar then some (.obj [(k, v)], r4) else none
              | [] => none)
         | _ => none)
    | _ => none

end

/-- `JSON.parse`: parses a complete JSON text (allowing surrounding
whitespace); `none` models the thrown `SyntaxError`. -/
def jsonParse (s : String) : Option Json :=
  match parseVal (s.length + 1) s.data with
  | some (j, rest) => if (skipWs rest).isEmpty then some j else none
  | none => none

/-! ## ProxyFetch (`src/unnamed/part_005`)

`fetchWithProxy` and its helpers.  A `Response` models the browser `Response`
object with its body already read as text (`await response.text()` never
fails on the responses considered here); `Headers` are presentation-only and
omitted.  Each network attempt (the direct fetch and each proxied fetch) is
an independent wire event, so the environment supplies the outcome of the
direct attempt and of the i-th proxy attempt by position; `Except.error ()`
models a thrown/timed-out/aborted fetch.  The per-proxy URL assembly
(cache-busting `_cb` parameter, `encodeURIComponent` wrapping) only shapes
the wire request the environment abstracts, and is not re-modelled. -/

/-- A browser `Response` with its body text. -/
structure Response where
  status : Nat
  statusText : String
  body : String
  deriving Repr, DecidableEq

/-- `Response.ok`: status in the inclusive range 200–299. -/
def Response.isOk (r : Response) : Bool :=
  200 ≤ r.status && r.status ≤ 299

/-- One CORS-proxy provider entry (the `ProxyConfig` interface). -/
structure ProxyConfig where
  name : String
  base : String
  encode : Bool
  supportsPost : Bool
  isWrapper : Bool
  deriving Repr, DecidableEq

/-- The prioritized proxy list `PROXY_LIST`. -/
def PROXY_LIST : List ProxyConfig :=
  [ { name := "CorsProxy", base := "https://corsproxy.io/?", encode := true,
      supportsPost := true, isWrapper := false },
    { name := "CodeTabs", base := "https://api.codetabs.com/v1/proxy?quest=", encode := true,
      supportsPost := true, isWrapper := false },
    { name := "AllOrigins Raw", base := "https://api.allorigins.win/raw?url=", encode := true,
      supportsPost := false, isWrapper := false },
    { name := "ThingProxy", base := "https://thingproxy.freeboard.io/fetch/", encode := false,
      supportsPost := true, isWrapper := false },
    { name := "AllOrigins JSON", base := "https://api.allorigins.win/get?url=", encode := true,
      supportsPost := false, isWrapper := true } ]

/-- `getPrioritizedProxies`: POST keeps only POST-capable proxies; GET moves
"AllOrigins Raw" to the front (JavaScript `Array.prototype.sort` is stable,
and the source comparator only promotes that entry). -/
def getPrioritizedProxies (method : String) : List ProxyConfig :=
  if method = "POST" then PROXY_LIST.filter (·.supportsPost)
  else
    PROXY_LIST.filter (·.name = "AllOrigins Raw") ++
      PROXY_LIST.filter (·.name ≠ "AllOrigins Raw")

/-- `String.prototype.trim` on the character list (the upstream bodies only
carry ASCII whitespace, where the JavaScript and Lean whitespace classes
agree). -/
def jsTrimChars (l : List Char) : List Char :=
  ((l.dropWhile Char.isWhitespace).reverse.dropWhile Char.isWhitespace).reverse

/-- `isValidResponse`: rejects empty bodies and HTML error pages; accepts
exactly the texts that are brace/bracket-delimited after trimming and that
`JSON.parse` accepts.  `startsWith`/`endsWith` on the one-character markers
are the head/last tests on the trimmed character list. -/
def isValidResponse (text : String) : Bool :=
  if text = "" then false
  else
    let trimmed := jsTrimChars text.data
    match trimmed with
    | [] => false
    | c :: _ =>
      if c = '<' then false
      else if (c = lbraceChar || c = '[')
          && (trimmed.getLast? = some rbraceChar || trimmed.getLast? = some ']') then
        (jsonParse (String.mk trimmed)).isSome
      else false

/-- Network environment for one `fetchWithProxy` call: outcome of the direct
fetch, and outcome of the attempt through the i-th proxy of the prioritized
list. -/
structure FetchEnv where
  direct : Except Unit Response
  proxyAttempt : Nat → Except Unit Response

/-- The synthetic failure response built when every attempt fails:
`new Response(JSON.stringify(\x7berror: "All proxies failed"\x7d),
\x7bstatus: 503, statusText: "Service Unavailable"\x7d)`. -/
def fallback503 : Response :=
  { status := 503, statusText := "Service Unavailable",
    body := "\x7b\"error\":\"All proxies failed\"\x7d" }

/-- The result of the AllOrigins wrapper-handling block inside the proxy
loop: `bail` models `continue`, `notFound` the early `return` of a synthetic
404, and `text` the (possibly `undefined` or non-string) unwrapped
`wrapper.contents` that flows on to `isValidResponse`. -/
inductive WrapperStep where
  | bail : WrapperStep
  | notFound : WrapperStep
  | text (t : Option Json) : WrapperStep

/-- The `if (proxy.isWrapper) try ... catch` block: parse the wrapper
envelope, unwrap `.contents`, honour the inner `status.http_code` when it is
truthy. -/
def wrapperStep (body : String) : WrapperStep :=
  match jsonParse body with
  | none => .bail                                   -- JSON.parse threw
  | some wrapper =>
    let contents := wrapper.getField "contents"
    let code := (wrapper.getField "status").bind (fun s => s.getField "http_code")
    match code with
    | some c =>
      if c.truthy then
        if c.isNumEq 404 then .notFound
        else if ¬ c.isNumEq 200 then .bail          -- `continue`
        else .text contents
      else .text contents
    | none => .text contents

/-- The proxy loop of `fetchWithProxy` (`for (const proxy of proxies)`),
starting from attempt index `idx`.  When the wrapper yields a non-string
`contents`, the source's `isValidResponse(text)` either returns `false`
(`undefined`/`null` body) or throws a `TypeError` caught by the loop's
`catch`; both continue to the next proxy, modelled uniformly as a skip. -/
def tryProxies (env : FetchEnv) : List ProxyConfig → Nat → Response
  | [], _ => fallback503
  | proxy :: rest, idx =>
    match env.proxyAttempt idx with
    | .error _ => tryProxies env rest (idx + 1)
    | .ok response =>
      if response.isOk then
        let step :=
          if proxy.isWrapper then wrapperStep response.body
          else .text (some (.str response.body))
        match step with
        | .bail => tryProxies env rest (idx + 1)
        | .notFound => { status := 404, statusText := "Not Found", body := "[]" }
        | .text (some (.str s)) =>
          if isValidResponse s then { status := 200, statusText := "OK", body := s }
          else tryProxies env rest (idx + 1)
        | .text _ => tryProxies env rest (idx + 1)
      else tryProxies env rest (idx + 1)

/-- `fetchWithProxy(url, options)`: direct-first with body validation, 404
passthrough, then the proxy chain, finally the synthetic 503.  The `url` and
request options beyond the method do not influence the control flow. -/
def fetchWithProxy (env : FetchEnv) (_url : String) (method : String) : Response :=
  let proxies := getPrioritizedProxies method
  match env.direct with
  | .error _ => tryProxies env proxies 0
  | .ok response =>
    if response.isOk && isValidResponse response.body then response
    else if response.status = 404 then response
    else tryProxies env proxies 0

/-! ## WalletResolver (`src/unnamed/part_003`, `resolveTargetWallet`) -/

/-- The all-zero address literal used by the source. -/
def zeroAddress : String := "0x0000000000000000000000000000000000000000"

/-- `ethers.isAddress`, modelled as `0x` + 40 hex digits.  The real function
additionally rejects mixed-case strings whose EIP-55 checksum is wrong
(keccak-based); no claim below depends on a mixed-case input, and every
concrete address used here is single-case, where the two definitions agree. -/
def ethersIsAddress (s : String) : Bool :=
  match s.data with
  | '0' :: 'x' :: rest => rest.length = 40 && rest.all hexDigit
  | _ => false

/-- Delete the first occurrence of `pat` from `l` (the semantics of
JavaScript `String.prototype.replace` with a plain-string pattern and an
empty replacement). -/
def deleteFirstOcc (pat : List Char) : List Char → List Char
  | [] => []
  | c :: rest =>
    if pat.isPrefixOf (c :: rest) then (c :: rest).drop pat.length
    else c :: deleteFirstOcc pat rest

/-- `s.split(sep)[0]` for a one-character separator. -/
def takeBeforeChar (sep : Char) (l : List Char) : List Char :=
  l.takeWhile (fun c => c ≠ sep)

/-- The strict sanitization block of `resolveTargetWallet`: drop a query
string and fragment, trim, drop one trailing slash (`replace(/\/$/, '')`),
strip the first occurrence of each profile-URL prefix, drop one leading `@`
(`replace(/^@/, '')`). -/
def sanitizeInput (input : String) : String :=
  let s1 := takeBeforeChar '?' input.data
  let s2 := takeBeforeChar '#' s1
  let s3 := jsTrimChars s2
  let s4 := if s3.getLast? = some '/' then s3.dropLast else s3
  let s5 := deleteFirstOcc "https://polymarket.com/profile/".data s4
  let s6 := deleteFirstOcc "https://polymarket.com/@".data s5
  let s7 := deleteFirstOcc "polymarket.com/@".data s6
  let s8 := match s7 with
    | '@' :: rest => rest
    | l => l
  String.mk s8

/-- Environment for one `resolveTargetWallet` call: the outcome of the
`fetchWithProxy(GAMMA_API_URL/users?...)` request (`Except.error` is the
`catch` branch of the surrounding `try`). -/
structure ResolveEnv where
  usersResponse : Except Unit Response

/-- Read a JSON field as the string it holds (`none` when absent or not a
string; the Gamma user schema types `proxyWallet`/`address` as strings). -/
def Json.getStringField (j : Json) (key : String) : Option String :=
  match j.getField key with
  | some (.str s) => some s
  | _ => none

/-- `resolveTargetWallet(input)`: sanitize, resolve through the Gamma users
directory (proxy wallet authoritative when truthy and non-zero), fall back to
the literal input when it is a valid address.  A `some` result models a
resolved address, `none` the source's `null` (and the `undefined` produced
when the matched user record carries no usable `address` field). -/
def resolveTargetWallet (env : ResolveEnv) (input : String) : Option String :=
  if input = "" then none
  else
    let cleanInput := sanitizeInput input
    let fallback : Option String :=
      if ethersIsAddress cleanInput then some cleanInput else none
    match env.usersResponse with
    | .error _ => fallback
    | .ok response =>
      if response.isOk then
        match jsonParse response.body with
        | none => fallback                        -- response.json() threw
        | some data =>
          match data with
          | .arr (.null :: _) => fallback           -- property access on null throws
          | .arr (user :: _) =>
            (match user.getStringField "proxyWallet" with
             | some pw =>
               if pw ≠ "" ∧ pw ≠ zeroAddress then some pw
               else user.getStringField "address"
             | none => user.getStringField "address")
          | _ => fallback                         -- not an array / empty array
      else fallback

/-! ## PositionAggregator (`src/unnamed/part_003`, `fetchActivePositions`)

The two per-address sub-fetchers are separate source functions whose results
are entirely network-determined, so the environment supplies their outcomes:
`fetchActivePositionsFromGamma` throws on hard failure (`Except.error`),
while `fetchActivePositionsFromGraph` returns `null` on failure (`Except.ok
none`; its own body catches internally, the caller's `catch` is modelled by
`Except.error` as well).  The inline `users?address=` proxy-wallet probe is
summarised by `proxyLookup`: `some pw` exactly when that request succeeded
with a non-empty array whose first user carries a truthy `proxyWallet`. -/

/-- An `ActivePosition`, restricted to the fields `fetchActivePositions`
itself reads (identity, merge key, sort key); the presentation-only fields
(market label, outcome, entry price, pnl, …) do not influence it. -/
structure ActivePosition where
  id : String
  conditionId : Option String
  amount : ℚ
  currentPrice : ℚ
  deriving Repr, DecidableEq

/-- The merge key `p.conditionId || p.id` (an empty-string `conditionId` is
falsy and also falls back to the id). -/
def ActivePosition.mergeKey (p : ActivePosition) : String :=
  match p.conditionId with
  | some c => if c = "" then p.id else c
  | none => p.id

/-- Environment for one `fetchActivePositions` call. -/
structure PositionsEnv where
  proxyLookup : Option String
  gamma : String → Except Unit (List ActivePosition)
  graph : String → Except Unit (Option (List ActivePosition))

/-- `Set.add` on an insertion-ordered list (JavaScript `Set` semantics). -/
def setAdd (l : List String) (x : String) : List String :=
  if x ∈ l then l else l ++ [x]

/-- The candidate-address set built at the top of `fetchActivePositions`:
the resolved address, the original input when it is independently a valid
address, and any proxy wallet discovered by the fresh directory probe. -/
def addressesToTry (env : PositionsEnv) (address : String) (originalInput : Option String) :
    List String :=
  let l := setAdd [] address
  let l :=
    match originalInput with
    | some oi => if ethersIsAddress oi then setAdd l oi else l
    | none => l
  match env.proxyLookup with
  | some pw => setAdd l pw
  | none => l

/-- One iteration of the candidate loop: Gamma first (appends on success and
marks the connection), then the subgraph (merged only for keys not already
present). -/
def positionsStep (env : PositionsEnv) (acc : Bool × List ActivePosition) (addr : String) :
    Bool × List ActivePosition :=
  -- STRATEGY 1: Gamma
  let acc :=
    match env.gamma addr with
    | .ok gammaPos =>
      (true, if gammaPos.length > 0 then acc.2 ++ gammaPos else acc.2)
    | .error _ => acc
  -- STRATEGY 2: The Graph
  match env.graph addr with
  | .error _ => acc
  | .ok none => acc
  | .ok (some graphPos) =>
    if graphPos.length > 0 then
      let existingIds := acc.2.map ActivePosition.mergeKey
      let newGraphPos := graphPos.filter (fun p => p.mergeKey ∉ existingIds)
      (true, acc.2 ++ newGraphPos)
    else (true, acc.2)

/-- `new Map(list.map(p => [p.id, p])).values()`: one entry per id, in order
of first insertion, the last write for an id winning. -/
def dedupById (l : List ActivePosition) : List ActivePosition :=
  (l.foldl
    (fun acc p =>
      if acc.any (fun q => q.1 = p.id) then
        acc.map (fun q => if q.1 = p.id then (q.1, p) else q)
      else acc ++ [(p.id, p)])
    []).map (·.2)

/-- Descending sort by current notional value (`amount × currentPrice`);
JavaScript `Array.prototype.sort` with the numeric comparator is a stable
descending sort. -/
def sortByNotional (l : List ActivePosition) : List ActivePosition :=
  l.mergeSort (fun a b => b.amount * b.currentPrice ≤ a.amount * a.currentPrice)

/-- `fetchActivePositions(address, originalInput?)`: `some []` immediately on
an empty address, otherwise fan out over the candidate addresses, and return
`none` (the `null` sentinel) exactly when no backend connection was made. -/
def fetchActivePositions (env : PositionsEnv) (address : String)
    (originalInput : Option String) : Option (List ActivePosition) :=
  if address = "" then some []
  else
    let candidates := addressesToTry env address originalInput
    let result := candidates.foldl (positionsStep env) (false, [])
    let uniquePositions := dedupById result.2
    if ¬ result.1 ∧ uniquePositions.length = 0 then none
    else some (sortByNotional uniquePositions)

/-! ## ActivityDetector

### Polling channel (`src/unnamed/part_003`, `pollRecentTrades`) and the
polling branch of the engine tick (`src/types.ts`). -/

/-- Binary outcome share class. -/
inductive Outcome where
  | YES : Outcome
  | NO : Outcome
  deriving Repr, DecidableEq

/-- Order side. -/
inductive Side where
  | BUY : Side
  | SELL : Side
  deriving Repr, DecidableEq

/-- JavaScript `a || b` on optional strings (`undefined` and `""` are the
falsy cases). -/
def jsOrStr (a : Option String) (b : Option String) : Option String :=
  match a with
  | some s => if s = "" then b else some s
  | none => b

/-- JavaScript `parseInt` on the decimal strings of the trade API (leading
whitespace, one optional sign, then a maximal digit run; `none` models
`NaN`).  `parseInt(undefined)` is `NaN`. -/
def parseIntJs (s : Option String) : Option Int :=
  match s with
  | none => none
  | some str =>
    let chars := str.data.dropWhile (fun c => c.isWhitespace)
    let (neg, rest) :=
      match chars with
      | '-' :: r => (true, r)
      | '+' :: r => (false, r)
      | r => (false, r)
    let (ds, _) := takeDigits rest
    match ds with
    | [] => none
    | _ => some (if neg then -(digitsToNat ds : Int) else (digitsToNat ds : Int))

/-- JavaScript `parseFloat` (leading whitespace, optional sign, digits with
an optional decimal fraction; `none` models `NaN`).  The exponent form does
not occur in the size strings considered here. -/
def parseFloatJs (s : Option String) : Option ℚ :=
  match s with
  | none => none
  | some str =>
    let chars := str.data.dropWhile (fun c => c.isWhitespace)
    let (neg, rest) :=
      match chars with
      | '-' :: r => (true, r)
      | '+' :: r => (false, r)
      | r => (false, r)
    let (intDs, rest1) := takeDigits rest
    let (fracDs, _) :=
      match rest1 with
      | '.' :: r => takeDigits r
      | _ => ([], rest1)
    if intDs = [] ∧ fracDs = [] then none
    else
      let q : ℚ := (digitsToNat intDs : ℚ) + (digitsToNat fracDs : ℚ) / (10 : ℚ) ^ fracDs.length
      some (if neg then -q else q)

/-- One raw record of `CLOB_API_URL/data/trades`, restricted to the fields
`pollRecentTrades` reads; all are decimal/identifier strings in the wire
format (`asset_id` is taken as present, per the endpoint schema). -/
structure RawTrade where
  match_id : Option String
  timestamp : Option String
  match_time : Option String
  asset_id : String
  side : String
  size : Option String
  deriving Repr, DecidableEq

/-- `parseInt(t.timestamp || t.match_time)`, the poll-window comparison key. -/
def RawTrade.time (t : RawTrade) : Option Int :=
  parseIntJs (jsOrStr t.timestamp t.match_time)

/-- The normalized object `pollRecentTrades` emits per fresh trade. -/
structure PolledTrade where
  hash : String
  timestamp : Option Int
  market : String
  outcome : Outcome
  amount : Option ℚ
  tokenId : String
  side : String
  deriving Repr, DecidableEq

/-- Environment for one `pollRecentTrades` call: the parsed trade list
(`Except.error` = fetch/json threw, `none` = non-OK status or a non-array
body, both returning `[]`), and the market-question map produced by
`fetchBatchMarkets` (empty when that batch fetch threw). -/
structure PollEnv where
  trades : Except Unit (Option (List RawTrade))
  marketMap : String → Option String

/-- The mapping step of `pollRecentTrades` on one fresh trade record. -/
def toPolledTrade (env : PollEnv) (t : RawTrade) : PolledTrade :=
  { hash := (jsOrStr t.match_id (some ("tx-" ++ t.timestamp.getD "undefined"))).getD "",
    timestamp := t.time,
    market :=
      match env.marketMap t.asset_id with
      | some question => question
      | none => "Market " ++ String.mk (t.asset_id.data.take 6) ++ "...",
    outcome := if t.side = "BUY" then .YES else .NO,
    amount := parseFloatJs (jsOrStr t.size (some "0")),
    tokenId := t.asset_id,
    side := t.side }

/-- The `newTrades` filter of `pollRecentTrades`: keep the records strictly
newer than `sinceTimestamp` (a record whose timestamp fields do not parse
compares as NaN and is dropped). -/
def freshTrades (sinceTimestamp : Int) (trades : List RawTrade) : List RawTrade :=
  trades.filter (fun t =>
    match t.time with
    | some txTime => txTime > sinceTimestamp
    | none => false)

/-- `pollRecentTrades(address, sinceTimestamp)`: fetch recent fills, keep the
records strictly newer than `sinceTimestamp`, normalize them. -/
def pollRecentTrades (env : PollEnv) (address : String) (sinceTimestamp : Int) :
    List PolledTrade :=
  if address = "" then []
  else
    match env.trades with
    | .error _ => []
    | .ok none => []
    | .ok (some trades) =>
      if (freshTrades sinceTimestamp trades).length = 0 then []
      else (freshTrades sinceTimestamp trades).map (toPolledTrade env)

/-- The polling branch of the engine tick (`src/types.ts`, lines 607–610):
poll since the stored baseline, then advance the baseline to the current
wall-clock second unconditionally. -/
def pollingTick (env : PollEnv) (address : String) (lastPollTime nowSec : Int) :
    Int × List PolledTrade :=
  (nowSec, pollRecentTrades env address lastPollTime)

/-! ### Mempool dedup set (`src/unnamed/part_004`, `SEEN_HASHES`) and the
polling dedup (`src/types.ts`, lines 613–618, `processedTxHashes`). -/

/-- `MAX_HISTORY`, the mempool seen-set capacity. -/
def MAX_HISTORY : Nat := 1000

/-- The guarded insertion of `scanMempool`: add the hash, then evict the
oldest entry (`SEEN_HASHES.values().next().value`, i.e. the first inserted)
when the capacity is exceeded.  The list is kept in insertion order with the
oldest entry at the head. -/
def seenHashesAdd (seen : List String) (h : String) : List String :=
  if (seen ++ [h]).length > MAX_HISTORY then (seen ++ [h]).drop 1 else seen ++ [h]

/-- The per-transaction dedup gate of `scanMempool`: a transaction hash
already in `SEEN_HASHES` is dropped entirely (no log, no signal); a fresh
hash is recorded (with eviction) and processed.  The returned flag is `true`
exactly when the transaction is processed. -/
def processMempoolTx (seen : List String) (h : String) : List String × Bool :=
  if h ∈ seen then (seen, false)
  else (seenHashesAdd seen h, true)

/-- `trade.hash.split('-')[0]`, the simplified polled-trade key. -/
def simpleHashOf (h : String) : String :=
  String.mk (takeBeforeChar '-' h.data)

/-- The polled-trade dedup gate of the engine tick: a trade is emitted only
when neither its full hash nor its simplified prefix has been processed, and
then both keys are recorded (the `processedTxHashes` set is unbounded). -/
def processPolledHash (seen : List String) (h : String) : List String × Bool :=
  if simpleHashOf h ∉ seen ∧ h ∉ seen then
    (setAdd (setAdd seen h) (simpleHashOf h), true)
  else (seen, false)

/-! ## OrderExecutor (`src/services/executionService.ts`, `executeTrade`) and
ConfigPanel key validation (`src/unnamed/part_001`). -/

/-- The `TradeLog.type` union. -/
inductive LogType where
  | INFO | PENDING | FRONTRUN | BUY | SELL | ERROR | SUCCESS | RETRY | ALERT
  deriving Repr, DecidableEq

/-- A `TradeLog` entry (timestamps as epoch milliseconds). -/
structure TradeLog where
  id : String
  timestamp : ℕ
  type : LogType
  message : String
  hash : Option String
  amount : Option ℤ
  asset : Option String
  outcome : Option Outcome
  tokenId : Option String
  side : Option Side
  deriving Repr, DecidableEq

/-- The `executionMethod` union of `TradeConfig`. -/
inductive ExecutionMethod where
  | PRIVATE_KEY | POLYMARKET_API
  deriving Repr, DecidableEq

/-- The `TradeConfig` fields read by `executeTrade` and `ConfigPanel`
(the remaining fields — gas, slippage, retry, limits, target wallet — do not
influence them). -/
structure TradeConfig where
  executionMethod : ExecutionMethod
  privateKey : String
  polymarketApiKey : Option String
  polymarketApiSecret : Option String
  polymarketApiPassphrase : Option String
  simulationMode : Bool
  rpcUrl : String
  copyMultiplier : ℚ
  deriving Repr, DecidableEq

/-- The signal argument of `executeTrade`. -/
structure ExecSignal where
  market : String
  outcome : Outcome
  amount : ℚ
  tokenId : Option String
  side : Option Side
  deriving Repr, DecidableEq

/-- Rendering of a side in template strings. -/
def Side.toString : Side → String
  | .BUY => "BUY"
  | .SELL => "SELL"

/-- Result of a successful live round trip (`client.postOrder`); the fields
`executeTrade` reads from it. -/
structure LiveResult where
  orderID : Option String
  transactionHash : Option String
  deriving Repr, DecidableEq

/-- Environment for one `executeTrade` call: the outcome of the whole live
leg (ClobClient construction — which throws on a malformed key —, order
signing and posting; the error carries `e.message`), and the
`Math.random`-derived hex string used for fabricated hashes. -/
structure ExecEnv where
  liveResult : Except String LiveResult
  randomHex : String

/-- `executeTrade(config, signal)`: validation gate, exact-copy sizing
(`Math.floor(signal.amount * config.copyMultiplier)`), then the live or
simulation branch; a live-path exception is caught and reported as an
ERROR-typed log.  `Except.error` models the thrown validation error. -/
def executeTrade (env : ExecEnv) (now : ℕ) (config : TradeConfig) (signal : ExecSignal) :
    Except String TradeLog :=
  -- 1. Validation
  if ¬ config.simulationMode ∧ (config.privateKey = "" ∨ config.privateKey.length < 64) then
    .error "Private Key required for real execution."
  else
    -- 2. Exact Copy Logic (Strict)
    let finalOutcome := signal.outcome
    let finalAmount : ℤ := ⌊signal.amount * config.copyMultiplier⌋
    let tokenId := (jsOrStr signal.tokenId (some "4839204121234123412341234")).getD ""
    let side := signal.side.getD (if finalOutcome = .YES then .BUY else .SELL)
    -- 3. Execution (Real vs Simulation)
    if ¬ config.simulationMode then
      match env.liveResult with
      | .ok result =>
        .ok { id := (jsOrStr result.orderID (some ("tx-" ++ toString now))).getD "",
              timestamp := now, type := .SUCCESS,
              message := "COPY EXECUTED: " ++ (side.toString ++ (" $" ++ (toString finalAmount
                ++ (" on \"" ++ (signal.market ++ "\""))))),
              hash := some ((jsOrStr result.transactionHash (some ("0x" ++ env.randomHex))).getD ""),
              amount := some finalAmount, asset := some signal.market,
              outcome := some finalOutcome, tokenId := some tokenId, side := some side }
      | .error errMsg =>
        .ok { id := "err-" ++ toString now, timestamp := now, type := .ERROR,
              message := "COPY FAILED: " ++ (if errMsg = "" then "Unknown error" else errMsg),
              hash := none, amount := none, asset := none, outcome := none,
              tokenId := none, side := none }
    else
      .ok { id := "sim-" ++ toString now, timestamp := now, type := .SUCCESS,
            message := "SIMULATION COPY: " ++ (side.toString ++ (" $" ++ (toString finalAmount
              ++ (" on \"" ++ (signal.market ++ "\""))))),
            hash := some ("0x" ++ env.randomHex),
            amount := some finalAmount, asset := some signal.market,
            outcome := some finalOutcome, tokenId := some tokenId, side := some side }

/-- `ConfigPanel.validatePrivateKey`: the strict pattern "64 hex characters,
with optional 0x prefix" (the prefix, when present, must be followed by the
full 64 hex digits), with an emptiness pre-check. -/
def validatePrivateKey (key : String) : Bool :=
  if key = "" then false
  else
    let body :=
      match key.data with
      | '0' :: 'x' :: rest => rest
      | cs => cs
    body.length = 64 && body.all hexDigit

/-- `ConfigPanel.isStartDisabled`: the start button is disabled when not
running, live, in private-key mode, with a key failing the strict pattern. -/
def isStartDisabled (isRunning : Bool) (config : TradeConfig) : Bool :=
  !isRunning && !config.simulationMode
    && config.executionMethod = ExecutionMethod.PRIVATE_KEY
    && !validatePrivateKey config.privateKey

/-! ## ClobClient (`src/services/clobClient.ts`, `signOrder`) -/

/-- The `SignedOrder` shape (amounts as exact integers in 6-decimal USDC
base units; the source carries them as decimal strings of the same values). -/
structure SignedOrder where
  salt : ℕ
  maker : String
  signer : String
  taker : String
  tokenId : String
  makerAmount : ℤ
  takerAmount : ℤ
  expiration : ℕ
  nonce : ℕ
  feeRate : ℕ
  side : ℕ
  signatureType : ℕ
  signature : String
  deriving Repr, DecidableEq

/-- `ethers.parseUnits(amount.toString(), 6)` on the integral amounts
`executeTrade` passes in. -/
def parseUnits6 (amount : ℤ) : ℤ :=
  amount * 1000000

/-- `ClobClient.signOrder(tokenId, side, amount, price)`: `salt` is the
random nonce drawn at signing time, `nowSec` the wall clock in seconds,
`walletAddress` the signer's address and `signature` the EIP-712 signature
the wallet produces over the order; the `price` argument is accepted but
unused by the source. -/
def signOrder (walletAddress : String) (salt : ℕ) (nowSec : ℕ) (signature : String)
    (tokenId : String) (side : Side) (amount : ℤ) (price : ℚ) : SignedOrder :=
  let _ := price
  let sideInt : ℕ := if side = Side.BUY then 0 else 1
  { salt := salt,
    maker := walletAddress,
    signer := walletAddress,
    taker := "0x0000000000000000000000000000000000000000",
    tokenId := tokenId,
    makerAmount := parseUnits6 amount,
    takerAmount := 0,
    expiration := nowSec + 300,
    nonce := 0,
    feeRate := 0,
    side := sideInt,
    signatureType := 0,
    signature := signature }

/-! ## EngineLoop connection state machine (`src/types.ts`, `App.toggleBot`)

The live tick body ends in a success branch (lines 636–641) and a `catch`
branch (lines 667–678).  `lastStatus` models `lastStatusRef.current` (the
displayed `connectionStatus` mirrors it on every transition), `errorCount`
models `errorCountRef.current`, and `logs` collects the `addLog` entries of
these two branches as (type, message) pairs (the random id and timestamp of
a `TradeLog` carry no information here). -/

/-- The connection status union. -/
inductive ConnStatus where
  | IDLE | CONNECTING | CONNECTED | ERROR
  deriving Repr, DecidableEq

/-- The engine-loop state touched by the two transition branches. -/
structure EngineState where
  lastStatus : ConnStatus
  errorCount : ℕ
  logs : List (LogType × String)
  deriving Repr, DecidableEq

/-- The `catch` branch of the live tick: count the error, and only on a
transition into ERROR log `Connection Failed: e.message || "Unknown Error"`. -/
def tickConnFailure (s : EngineState) (errMsg : String) : EngineState :=
  let s := { s with errorCount := s.errorCount + 1 }
  if s.lastStatus ≠ ConnStatus.ERROR then
    { s with
      logs := s.logs ++ [(LogType.ERROR,
        "Connection Failed: " ++ (if errMsg = "" then "Unknown Error" else errMsg))],
      lastStatus := ConnStatus.ERROR }
  else s

/-- The success branch of the live tick: only on a transition into CONNECTED
log the recovery, and reset the error counter. -/
def tickConnSuccess (s : EngineState) : EngineState :=
  if s.lastStatus ≠ ConnStatus.CONNECTED then
    { s with
      logs := s.logs ++ [(LogType.SUCCESS, "Network Connection Established")],
      lastStatus := ConnStatus.CONNECTED,
      errorCount := 0 }
  else s

/-! ## Claims -/

/-- Claim C10: calling `fetchActivePositions` with an empty-string address
returns the empty array immediately — the "contacted successfully, zero
positions" value — for every environment, i.e. independently of any backend
outcome, rather than the `null` "could not establish contact" sentinel. -/
theorem fetchActivePositions_empty_address (env : PositionsEnv)
    (originalInput : Option String) :
    fetchActivePositions env "" originalInput = some [] := by
  simp [fetchActivePositions]

/-- Claim C1: whenever the user-directory lookup succeeds (OK response whose
body parses to a non-empty array) and the first record carries a truthy
proxy-wallet field different from the all-zero address,
`resolveTargetWallet` returns that proxy wallet — for every input, in
particular for inputs that are themselves syntactically valid addresses. -/
theorem resolveTargetWallet_prefers_proxy
    (env : ResolveEnv) (input : String) (r : Response) (user : Json)
    (rest : List Json) (pw : String)
    (hin : input ≠ "")
    (hresp : env.usersResponse = .ok r)
    (hok : r.isOk = true)
    (hparse : jsonParse r.body = some (Json.arr (user :: rest)))
    (hpw : user.getStringField "proxyWallet" = some pw)
    (hne : pw ≠ "")
    (hnz : pw ≠ zeroAddress) :
    resolveTargetWallet env input = some pw := by
  unfold resolveTargetWallet
  cases user with
  | null => simp [Json.getStringField, Json.getField] at hpw
  | _ => simp [hin, hresp, hok, hparse, hpw, hne, hnz]

/-- Concrete run of `resolveTargetWallet_prefers_proxy`: the input is itself
a valid address, the directory answers with a non-zero proxy wallet, and the
proxy wallet is returned. -/
def respC1 : Response :=
  { status := 200, statusText := "OK",
    body := "[\x7b\"proxyWallet\":\"0x1111111111111111111111111111111111111111\",\"address\":\"0xaaaaaaaaaaaaaaaaaaaaaaaaaaaaaaaaaaaaaaaa\"\x7d]" }

/-- Environment of the C1 witness. -/
def envC1 : ResolveEnv := { usersResponse := .ok respC1 }

/-- The parsed user record of the C1 witness body. -/
def userC1 : Json :=
  .obj [("proxyWallet", .str "0x1111111111111111111111111111111111111111"),
        ("address", .str "0xaaaaaaaaaaaaaaaaaaaaaaaaaaaaaaaaaaaaaaaa")]

theorem resolveTargetWallet_prefers_proxy_witness :
    resolveTargetWallet envC1 "0xaaaaaaaaaaaaaaaaaaaaaaaaaaaaaaaaaaaaaaaa"
      = some "0x1111111111111111111111111111111111111111" :=
  resolveTargetWallet_prefers_proxy envC1 _ respC1 userC1 [] _
    (by decide) rfl rfl rfl rfl (by decide) (by decide)

/-- Claim C9: every order built by `ClobClient.signOrder` has the null
address as taker, expires exactly 300 seconds after the signing time (hence
strictly after it), encodes BUY as side 0 and SELL as side 1, and carries
integer 6-decimal USDC base-unit amounts that are non-negative whenever the
requested amount is. -/
theorem signOrder_invariants (walletAddress : String) (salt nowSec : ℕ)
    (signature tokenId : String) (side : Side) (amount : ℤ) (price : ℚ) :
    (signOrder walletAddress salt nowSec signature tokenId side amount price).taker
        = zeroAddress
    ∧ (signOrder walletAddress salt nowSec signature tokenId side amount price).expiration
        = nowSec + 300
    ∧ nowSec
        < (signOrder walletAddress salt nowSec signature tokenId side amount price).expiration
    ∧ (side = Side.BUY →
        (signOrder walletAddress salt nowSec signature tokenId side amount price).side = 0)
    ∧ (side = Side.SELL →
        (signOrder walletAddress salt nowSec signature tokenId side amount price).side = 1)
    ∧ (signOrder walletAddress salt nowSec signature tokenId side amount price).makerAmount
        = amount * 1000000
    ∧ (signOrder walletAddress salt nowSec signature tokenId side amount price).takerAmount
        = 0
    ∧ (0 ≤ amount →
        0 ≤ (signOrder walletAddress salt nowSec signature tokenId side amount price).makerAmount
        ∧ 0 ≤ (signOrder walletAddress salt nowSec signature tokenId side amount price).takerAmount) := by
  refine ⟨rfl, rfl, by simp [signOrder], ?_, ?_, rfl, rfl, ?_⟩
  · intro h; simp [signOrder, h]
  · intro h; cases side <;> simp_all [signOrder]
  · intro h
    refine ⟨?_, by simp [signOrder]⟩
    show (0 : ℤ) ≤ amount * 1000000
    exact mul_nonneg h (by norm_num)

theorem signOrder_invariants_witness :
    (signOrder "0xaaaaaaaaaaaaaaaaaaaaaaaaaaaaaaaaaaaaaaaa" 7 1000 "0xsig" "123" Side.BUY 356 (55/100)).side = 0
    ∧ 0 ≤ (signOrder "0xaaaaaaaaaaaaaaaaaaaaaaaaaaaaaaaaaaaaaaaa" 7 1000 "0xsig" "123" Side.BUY 356 (55/100)).makerAmount := by
  have h := signOrder_invariants "0xaaaaaaaaaaaaaaaaaaaaaaaaaaaaaaaaaaaaaaaa" 7 1000 "0xsig" "123" Side.BUY 356 (55/100)
  exact ⟨h.2.2.2.1 rfl, (h.2.2.2.2.2.2.2 (by norm_num)).1⟩

/-- The amount carried by an execution result (`none` for a thrown error or
an amount-less log). -/
def amountOf (r : Except String TradeLog) : Option ℤ :=
  match r with
  | .ok log => log.amount
  | .error _ => none

/-- Claim C4: every successful execution log carries exactly
`floor(signal.sizeUsd × config.copyMultiplier)` as its order amount, in both
the live and the simulation branch. -/
theorem executeTrade_amount_floor (env : ExecEnv) (now : ℕ) (config : TradeConfig)
    (signal : ExecSignal) (log : TradeLog)
    (h : executeTrade env now config signal = .ok log)
    (hs : log.type = LogType.SUCCESS) :
    log.amount = some ⌊signal.amount * config.copyMultiplier⌋ := by
  unfold executeTrade at h
  split at h
  · exact absurd h (by simp)
  · split at h
    · cases hl : env.liveResult with
      | ok result => rw [hl] at h; cases h; rfl
      | error errMsg => rw [hl] at h; cases h; simp at hs
    · cases h; rfl

/-- Environment of the C4 witness (the live leg is irrelevant in simulation
mode). -/
def envC4 : ExecEnv := { liveResult := .error "offline", randomHex := "abcd" }

/-- Simulation-mode configuration with copy multiplier 1.5. -/
def cfgC4 : TradeConfig :=
  { executionMethod := .PRIVATE_KEY, privateKey := "",
    polymarketApiKey := none, polymarketApiSecret := none,
    polymarketApiPassphrase := none,
    simulationMode := true, rpcUrl := "https://polygon-rpc.com",
    copyMultiplier := 3 / 2 }

/-- A detected signal of USD size 237.90. -/
def sigC4 : ExecSignal :=
  { market := "Will X happen?", outcome := .YES, amount := 2379 / 10,
    tokenId := none, side := none }

/-- The log produced for the C4 witness inputs (the amount fields are stated
via the sizing formula; `executeTrade_amount_floor_witness` computes them to
the concrete 356). -/
def logC4 : TradeLog :=
  { id := "sim-0", timestamp := 0, type := .SUCCESS,
    message := "SIMULATION COPY: " ++ ("BUY" ++ (" $" ++ (toString (⌊sigC4.amount * cfgC4.copyMultiplier⌋ : ℤ)
      ++ (" on \"" ++ ("Will X happen?" ++ "\""))))),
    hash := some "0xabcd", amount := some ⌊sigC4.amount * cfgC4.copyMultiplier⌋,
    asset := some "Will X happen?",
    outcome := some .YES, tokenId := some "4839204121234123412341234",
    side := some .BUY }

theorem executeTrade_amount_floor_witness :
    amountOf (executeTrade envC4 0 cfgC4 sigC4) = some 356 := by
  have hrun : executeTrade envC4 0 cfgC4 sigC4 = .ok logC4 := rfl
  have hfloor := executeTrade_amount_floor envC4 0 cfgC4 sigC4 logC4 hrun rfl
  have hval : (⌊sigC4.amount * cfgC4.copyMultiplier⌋ : ℤ) = 356 := by
    show (⌊(2379 / 10 : ℚ) * (3 / 2)⌋ : ℤ) = 356
    norm_num
  rw [hrun]
  show logC4.amount = some 356
  rw [hfloor, hval]

/-- A syntactically well-formed but non-hex 64-character private key. -/
def badKey : String := String.mk (List.replicate 64 'z')

/-- Live-mode configuration holding the malformed key. -/
def cfgBadKey : TradeConfig :=
  { executionMethod := .PRIVATE_KEY, privateKey := badKey,
    polymarketApiKey := none, polymarketApiSecret := none,
    polymarketApiPassphrase := none,
    simulationMode := false, rpcUrl := "https://polygon-rpc.com",
    copyMultiplier := 1 }

/-- Environment in which the live leg fails (as the ethers wallet
constructor does on a malformed key). -/
def envC5 : ExecEnv := { liveResult := .error "invalid private key", randomHex := "00" }

/-- A minimal signal for the C5 runs. -/
def sigC5 : ExecSignal :=
  { market := "M", outcome := .YES, amount := 10, tokenId := none, side := none }

/-- Whether an execution result is a thrown error. -/
def isThrown (r : Except String TradeLog) : Bool :=
  match r with
  | .error _ => true
  | .ok _ => false

/-- `String.prototype.startsWith` on the character lists. -/
def strStartsWith (s pre : String) : Bool :=
  pre.data.isPrefixOf s.data

/-- Claim C5, counterexample: with simulation off and a 64-character key that
fails the strict hex pattern, `executeTrade` does not throw its validation
error (it proceeds into the execution branch, whose failure surfaces as an
ERROR-typed log, not a thrown error) — so a malformed key is not the hard
validation failure the claim asserts. -/
theorem executeTrade_malformed_key_not_rejected :
    validatePrivateKey badKey = false
    ∧ isThrown (executeTrade envC5 0 cfgBadKey sigC5) = false
    ∧ amountOf (executeTrade envC5 0 cfgBadKey sigC5) = none := by
  refine ⟨by decide, by decide, by decide⟩

/-- Claim C5, amended: with simulation off, `executeTrade` throws its
validation error exactly when the key is absent or shorter than 64
characters; the strict 64-hex (optional `0x`) pattern is enforced by
`ConfigPanel.validatePrivateKey`, which disables the live start button for a
non-matching key; and live mode never produces the simulation branch's
output (a live success log is a "COPY EXECUTED" entry, never a
"SIMULATION COPY" one). -/
theorem executeTrade_key_validation (env : ExecEnv) (now : ℕ) (config : TradeConfig)
    (signal : ExecSignal) :
    (isThrown (executeTrade env now config signal) = true ↔
      config.simulationMode = false
        ∧ (config.privateKey = "" ∨ config.privateKey.length < 64))
    ∧ (config.simulationMode = false →
        ∀ log, executeTrade env now config signal = .ok log →
          log.type = LogType.SUCCESS →
          strStartsWith log.message "COPY EXECUTED: " = true)
    ∧ (config.simulationMode = false →
        config.executionMethod = ExecutionMethod.PRIVATE_KEY →
        validatePrivateKey config.privateKey = false →
        isStartDisabled false config = true) := by
  refine ⟨?_, ?_, ?_⟩
  · unfold executeTrade
    split
    · rename_i hcond
      constructor
      · intro _
        exact ⟨by simpa using hcond.1, hcond.2⟩
      · intro _
        rfl
    · rename_i hcond
      have hnot : ¬ (config.simulationMode = false
          ∧ (config.privateKey = "" ∨ config.privateKey.length < 64)) := by
        intro hp
        exact hcond ⟨by simp [hp.1], hp.2⟩
      split
      · cases env.liveResult with
        | ok result =>
          constructor
          · intro hfalse; exact absurd hfalse (by simp [isThrown])
          · intro hcontr; exact absurd hcontr hnot
        | error errMsg =>
          constructor
          · intro hfalse; exact absurd hfalse (by simp [isThrown])
          · intro hcontr; exact absurd hcontr hnot
      · constructor
        · intro hfalse; exact absurd hfalse (by simp [isThrown])
        · intro hcontr; exact absurd hcontr hnot
  · intro hlive log hrun hs
    unfold executeTrade at hrun
    split at hrun
    · exact absurd hrun (by simp)
    · rw [if_pos (by simp [hlive])] at hrun
      cases hl : env.liveResult with
      | ok result =>
        rw [hl] at hrun; cases hrun
        show strStartsWith ("COPY EXECUTED: " ++ _) "COPY EXECUTED: " = true
        rw [strStartsWith]
        refine List.isPrefixOf_iff_prefix.mpr ?_
        show "COPY EXECUTED: ".data <+: ("COPY EXECUTED: ".data ++ _)
        exact List.prefix_append _ _
      | error errMsg =>
        rw [hl] at hrun; cases hrun; simp at hs
  · intro hlive hmethod hkey
    simp [isStartDisabled, hlive, hmethod, hkey]

theorem executeTrade_key_validation_witness :
    isThrown (executeTrade envC5 0 { cfgBadKey with privateKey := "" } sigC5) = true
    ∧ isStartDisabled false cfgBadKey = true := by
  refine ⟨?_, ?_⟩
  · exact (executeTrade_key_validation envC5 0 { cfgBadKey with privateKey := "" } sigC5).1.mpr
      ⟨rfl, Or.inl rfl⟩
  · exact (executeTrade_key_validation envC5 0 cfgBadKey sigC5).2.2 rfl rfl (by decide)

/-- Claim C6: from any non-ERROR engine state, three consecutive failing
ticks followed by one successful tick append exactly two log entries — the
ERROR transition for the first failure and the single recovery entry — and
leave the engine CONNECTED with the error counter reset; moreover a failing
tick in an already-ERROR state appends nothing and stays in ERROR. -/
theorem engine_tick_error_recovery :
    (∀ (s : EngineState) (m1 m2 m3 : String), s.lastStatus ≠ ConnStatus.ERROR →
      tickConnSuccess (tickConnFailure (tickConnFailure (tickConnFailure s m1) m2) m3)
        = { lastStatus := ConnStatus.CONNECTED,
            errorCount := 0,
            logs := s.logs
              ++ [(LogType.ERROR,
                    "Connection Failed: " ++ (if m1 = "" then "Unknown Error" else m1)),
                  (LogType.SUCCESS, "Network Connection Established")] })
    ∧ (∀ (s : EngineState) (m : String), s.lastStatus = ConnStatus.ERROR →
        (tickConnFailure s m).logs = s.logs
        ∧ (tickConnFailure s m).lastStatus = ConnStatus.ERROR) := by
  constructor
  · intro s m1 m2 m3 hs
    simp [tickConnFailure, tickConnSuccess, hs]
  · intro s m hs
    simp [tickConnFailure, hs]

theorem engine_tick_error_recovery_witness :
    tickConnSuccess (tickConnFailure (tickConnFailure (tickConnFailure
        { lastStatus := ConnStatus.CONNECTING, errorCount := 0, logs := [] }
        "boom") "boom") "boom")
      = { lastStatus := ConnStatus.CONNECTED, errorCount := 0,
          logs := [(LogType.ERROR, "Connection Failed: boom"),
                   (LogType.SUCCESS, "Network Connection Established")] } := by
  have h := engine_tick_error_recovery.1
    { lastStatus := ConnStatus.CONNECTING, errorCount := 0, logs := [] }
    "boom" "boom" "boom" (by decide)
  simpa using h

/-- A just-recorded hash stays in the mempool seen set: it is appended at the
tail, and eviction only drops the head (the set held at least one older
entry when it overflows). -/
lemma mem_seenHashesAdd_self (seen : List String) (h : String) :
    h ∈ seenHashesAdd seen h := by
  unfold seenHashesAdd
  split
  · rename_i hlen
    cases seen with
    | nil => simp [MAX_HISTORY] at hlen
    | cons a rest => simp
  · simp

/-- `Set.add` contains the added element. -/
lemma mem_setAdd_self (l : List String) (x : String) : x ∈ setAdd l x := by
  unfold setAdd
  split
  · assumption
  · simp

/-- `Set.add` preserves membership. -/
lemma mem_setAdd_of_mem (l : List String) (x y : String) (h : y ∈ l) : y ∈ setAdd l x := by
  unfold setAdd
  split
  · assumption
  · simp [h]

/-- Claim C7: presenting the same dedup key twice yields one emission — a
transaction hash re-presented to the mempool gate right after being recorded
is dropped, as is a polled trade re-presented by the same id or by any id
with the same simplified prefix; and the mempool seen set stays bounded at
1000 entries, evicting its oldest entry on overflow. -/
theorem signal_dedup_properties :
    (∀ (seen : List String) (h : String),
        (processMempoolTx (processMempoolTx seen h).1 h).2 = false)
    ∧ (∀ (seen : List String) (h : String),
        seen.length ≤ MAX_HISTORY → (processMempoolTx seen h).1.length ≤ MAX_HISTORY)
    ∧ (∀ (seen : List String) (h : String),
        h ∉ seen → seen.length = MAX_HISTORY →
          (processMempoolTx seen h).1 = seen.tail ++ [h])
    ∧ (∀ (seen : List String) (h : String),
        (processPolledHash (processPolledHash seen h).1 h).2 = false)
    ∧ (∀ (seen : List String) (h h2 : String),
        (processPolledHash seen h).2 = true → simpleHashOf h2 = simpleHashOf h →
          (processPolledHash (processPolledHash seen h).1 h2).2 = false) := by
  refine ⟨?_, ?_, ?_, ?_, ?_⟩
  · intro seen h
    by_cases hmem : h ∈ seen
    · have h1 : processMempoolTx seen h = (seen, false) := by
        unfold processMempoolTx; rw [if_pos hmem]
      rw [h1]
      dsimp only
      unfold processMempoolTx
      rw [if_pos hmem]
    · have h1 : processMempoolTx seen h = (seenHashesAdd seen h, true) := by
        unfold processMempoolTx; rw [if_neg hmem]
      rw [h1]
      dsimp only
      unfold processMempoolTx
      rw [if_pos (mem_seenHashesAdd_self seen h)]
  · intro seen h hlen
    unfold processMempoolTx
    split
    · simpa using hlen
    · show (seenHashesAdd seen h).length ≤ MAX_HISTORY
      unfold seenHashesAdd
      split
      · rename_i hover
        simp only [List.length_drop, List.length_append, List.length_singleton]
        omega
      · rename_i hover
        simp only [gt_iff_lt, not_lt, List.length_append, List.length_singleton] at hover
        simpa using hover
  · intro seen h hmem hlen
    have h1 : processMempoolTx seen h = (seenHashesAdd seen h, true) := by
      unfold processMempoolTx; rw [if_neg hmem]
    rw [h1]
    dsimp only
    unfold seenHashesAdd
    rw [if_pos (by simp only [List.length_append, List.length_singleton, hlen]; omega)]
    cases seen with
    | nil => simp [MAX_HISTORY] at hlen
    | cons a rest => simp
  · intro seen h
    by_cases hcond : simpleHashOf h ∉ seen ∧ h ∉ seen
    · have h1 : processPolledHash seen h
          = (setAdd (setAdd seen h) (simpleHashOf h), true) := by
        unfold processPolledHash; rw [if_pos hcond]
      rw [h1]
      dsimp only
      unfold processPolledHash
      rw [if_neg]
      intro hc
      exact hc.2 (mem_setAdd_of_mem _ _ _ (mem_setAdd_self seen h))
    · have h1 : processPolledHash seen h = (seen, false) := by
        unfold processPolledHash; rw [if_neg hcond]
      rw [h1]
      dsimp only
      unfold processPolledHash
      rw [if_neg hcond]
  · intro seen h h2 hemit hsimple
    by_cases hcond : simpleHashOf h ∉ seen ∧ h ∉ seen
    · have h1 : processPolledHash seen h
          = (setAdd (setAdd seen h) (simpleHashOf h), true) := by
        unfold processPolledHash; rw [if_pos hcond]
      rw [h1]
      dsimp only
      unfold processPolledHash
      rw [if_neg]
      intro hc
      exact hc.1 (by rw [hsimple]; exact mem_setAdd_self _ _)
    · exfalso
      have h1 : processPolledHash seen h = (seen, false) := by
        unfold processPolledHash; rw [if_neg hcond]
      rw [h1] at hemit
      simp at hemit

theorem signal_dedup_properties_witness :
    (processMempoolTx (processMempoolTx [] "0xaaa").1 "0xaaa").2 = false
    ∧ (processMempoolTx (List.replicate MAX_HISTORY "h1") "h2").1.length ≤ MAX_HISTORY
    ∧ (processMempoolTx (List.replicate MAX_HISTORY "h1") "h2").1
        = (List.replicate MAX_HISTORY "h1").tail ++ ["h2"]
    ∧ (processPolledHash (processPolledHash [] "tx1-a").1 "tx1-b").2 = false := by
  refine ⟨?_, ?_, ?_, ?_⟩
  · exact signal_dedup_properties.1 [] "0xaaa"
  · exact signal_dedup_properties.2.1 _ _ (by simp)
  · exact signal_dedup_properties.2.2.1 _ _ (by simp [List.mem_replicate]) (by simp)
  · exact signal_dedup_properties.2.2.2.2 [] "tx1-a" "tx1-b" (by decide) (by decide)

/-- Claim C8: a polling tick emits exactly the fetched records whose
timestamp is strictly newer than the stored baseline — every emitted signal
carries a timestamp strictly greater than `lastPollTimestamp`, every fetched
record strictly newer than it is emitted — and the baseline is then advanced
to the current wall-clock second unconditionally (independently of the
fetched records and of whether anything was emitted), not to the maximum
timestamp seen. -/
theorem polling_strict_filter_and_baseline (env : PollEnv) (address : String)
    (sinceTimestamp nowSec : Int) :
    (pollingTick env address sinceTimestamp nowSec).1 = nowSec
    ∧ (∀ p ∈ pollRecentTrades env address sinceTimestamp,
        ∃ ts, p.timestamp = some ts ∧ sinceTimestamp < ts)
    ∧ (∀ trades, env.trades = .ok (some trades) → address ≠ "" →
        ∀ t ∈ trades, ∀ ts, t.time = some ts → sinceTimestamp < ts →
          toPolledTrade env t ∈ pollRecentTrades env address sinceTimestamp) := by
  refine ⟨rfl, ?_, ?_⟩
  · intro p hp
    unfold pollRecentTrades at hp
    split at hp
    · simp at hp
    · split at hp
      · simp at hp
      · simp at hp
      · rename_i trades heq
        split at hp
        · simp at hp
        · obtain ⟨t, ht, rfl⟩ := List.mem_map.mp hp
          unfold freshTrades at ht
          obtain ⟨-, hfilter⟩ := List.mem_filter.mp ht
          match hts : t.time with
          | some ts =>
            refine ⟨ts, hts, ?_⟩
            rw [hts] at hfilter
            simpa using hfilter
          | none => rw [hts] at hfilter; simp at hfilter
  · intro trades henv haddr t ht ts hts hgt
    unfold pollRecentTrades
    rw [if_neg haddr, henv]
    have hmemfilter : t ∈ freshTrades sinceTimestamp trades := by
      unfold freshTrades
      refine List.mem_filter.mpr ⟨ht, ?_⟩
      rw [hts]
      simpa using hgt
    dsimp only
    split
    · rename_i hzero
      rw [List.length_eq_zero] at hzero
      rw [hzero] at hmemfilter
      simp at hmemfilter
    · exact List.mem_map.mpr ⟨t, hmemfilter, rfl⟩

/-- Environment of the C8 witness: one fetched record with timestamp 100. -/
def tradeC8 : RawTrade :=
  { match_id := some "m1", timestamp := some "100", match_time := none,
    asset_id := "777", side := "BUY", size := some "12.5" }

/-- The C8 witness environment. -/
def envC8 : PollEnv :=
  { trades := .ok (some [tradeC8]), marketMap := fun _ => none }

theorem polling_strict_filter_and_baseline_witness :
    (pollingTick envC8 "0xabc" 50 999).1 = 999
    ∧ toPolledTrade envC8 tradeC8 ∈ pollRecentTrades envC8 "0xabc" 50 := by
  have h := polling_strict_filter_and_baseline envC8 "0xabc" 50 999
  refine ⟨h.1, ?_⟩
  exact h.2.2 [tradeC8] rfl (by decide) tradeC8 (by simp) 100 (by decide) (by decide)

/-- Both backends failed for one candidate address: the Gamma fetch threw
and the subgraph returned its `null` failure marker (or its call threw). -/
def backendFailed (env : PositionsEnv) (addr : String) : Prop :=
  env.gamma addr = .error ()
    ∧ (env.graph addr = .error () ∨ env.graph addr = .ok none)

/-- A candidate whose backends both failed leaves the accumulator untouched. -/
lemma positionsStep_of_failed (env : PositionsEnv) (acc : Bool × List ActivePosition)
    (addr : String) (h : backendFailed env addr) :
    positionsStep env acc addr = acc := by
  unfold positionsStep
  rw [h.1]
  rcases h.2 with hg | hg <;> rw [hg]

/-- The connection flag is monotone along the candidate loop. -/
lemma positionsStep_conn_mono (env : PositionsEnv) (acc : Bool × List ActivePosition)
    (addr : String) (h : acc.1 = true) : (positionsStep env acc addr).1 = true := by
  unfold positionsStep
  cases hgamma : env.gamma addr with
  | ok gammaPos =>
    cases hgraph : env.graph addr with
    | error e => dsimp only
    | ok og =>
      cases og with
      | none => dsimp only
      | some graphPos => dsimp only; split <;> rfl
  | error e =>
    cases hgraph : env.graph addr with
    | error e2 => exact h
    | ok og =>
      cases og with
      | none => exact h
      | some graphPos => dsimp only; split <;> rfl

/-- A candidate with at least one responding backend sets the connection
flag. -/
lemma positionsStep_conn_of_ok (env : PositionsEnv) (acc : Bool × List ActivePosition)
    (addr : String) (h : ¬ backendFailed env addr) :
    (positionsStep env acc addr).1 = true := by
  unfold positionsStep
  cases hgamma : env.gamma addr with
  | ok gammaPos =>
    cases hgraph : env.graph addr with
    | error e => dsimp only
    | ok og =>
      cases og with
      | none => dsimp only
      | some graphPos => dsimp only; split <;> rfl
  | error e =>
    cases e
    unfold backendFailed at h
    push_neg at h
    have h2 := h hgamma
    cases hgraph : env.graph addr with
    | error e2 => cases e2; exact absurd hgraph h2.1
    | ok og =>
      cases og with
      | none => exact absurd hgraph h2.2
      | some graphPos => dsimp only; split <;> rfl

/-- All-failed candidates leave the fold at its start. -/
lemma positionsFold_of_all_failed (env : PositionsEnv) (l : List String)
    (acc : Bool × List ActivePosition) (h : ∀ a ∈ l, backendFailed env a) :
    l.foldl (positionsStep env) acc = acc := by
  induction l generalizing acc with
  | nil => rfl
  | cons a rest ih =>
    rw [List.foldl_cons, positionsStep_of_failed env acc a (h a (by simp))]
    exact ih acc (fun b hb => h b (by simp [hb]))

/-- The connection flag stays set along the fold. -/
lemma positionsFold_conn_mono (env : PositionsEnv) (l : List String)
    (acc : Bool × List ActivePosition) (h : acc.1 = true) :
    (l.foldl (positionsStep env) acc).1 = true := by
  induction l generalizing acc with
  | nil => exact h
  | cons a rest ih =>
    rw [List.foldl_cons]
    exact ih _ (positionsStep_conn_mono env acc a h)

/-- One responding candidate sets the connection flag of the whole fold. -/
lemma positionsFold_conn_of_ok (env : PositionsEnv) (l : List String)
    (acc : Bool × List ActivePosition) (h : ∃ a ∈ l, ¬ backendFailed env a) :
    (l.foldl (positionsStep env) acc).1 = true := by
  induction l generalizing acc with
  | nil => simp at h
  | cons a rest ih =>
    rw [List.foldl_cons]
    obtain ⟨b, hb, hbf⟩ := h
    rcases List.mem_cons.mp hb with rfl | hbrest
    · exact positionsFold_conn_mono env rest _ (positionsStep_conn_of_ok env acc b hbf)
    · exact ih _ ⟨b, hbrest, hbf⟩

/-- Claim C2: for a non-empty address, `fetchActivePositions` returns the
`null` sentinel exactly when both backends failed for every candidate
address; as soon as one backend call completes (even with zero rows) the
result is an array. -/
theorem fetchActivePositions_null_iff (env : PositionsEnv) (address : String)
    (originalInput : Option String) (haddr : address ≠ "") :
    (fetchActivePositions env address originalInput = none ↔
      ∀ a ∈ addressesToTry env address originalInput, backendFailed env a) := by
  unfold fetchActivePositions
  rw [if_neg haddr]
  dsimp only
  constructor
  · intro hnone
    by_contra hnot
    push_neg at hnot
    have hconn := positionsFold_conn_of_ok env (addressesToTry env address originalInput)
      (false, []) hnot
    rw [if_neg (by simp [hconn])] at hnone
    exact absurd hnone (by simp)
  · intro hall
    rw [positionsFold_of_all_failed env _ _ hall]
    simp [dedupById]

/-- The all-failing environment of the C2 witness. -/
def envC2 : PositionsEnv :=
  { proxyLookup := none,
    gamma := fun _ => .error (),
    graph := fun _ => .error () }

theorem fetchActivePositions_null_iff_witness :
    fetchActivePositions envC2 "0xabc" none = none :=
  (fetchActivePositions_null_iff envC2 "0xabc" none (by decide)).mpr
    (fun _ _ => ⟨rfl, Or.inl rfl⟩)

/-- When every remaining proxy attempt fails on the wire, the proxy loop
falls through to the synthetic 503 response. -/
lemma tryProxies_all_error (env : FetchEnv) (l : List ProxyConfig) :
    ∀ idx : Nat, (∀ i, i < l.length → env.proxyAttempt (idx + i) = .error ()) →
      tryProxies env l idx = fallback503 := by
  induction l with
  | nil => intro idx _; rfl
  | cons p rest ih =>
    intro idx h
    unfold tryProxies
    rw [show env.proxyAttempt idx = .error () from by simpa using h 0 (by simp)]
    exact ih (idx + 1) (fun i hi => by
      rw [show idx + 1 + i = idx + (i + 1) by omega]
      exact h (i + 1) (by simpa using Nat.succ_lt_succ hi))

/-- Claim C3: `fetchWithProxy` (a total function — the caller always gets a
`Response`, never an exception) does not accept a direct 2xx response whose
body fails the JSON shape validator and instead enters the proxy chain; when
the direct attempt and every proxy attempt fail, the result is the synthetic
503 response, whose body is exactly the `\x7berror\x7d` JSON object. -/
theorem fetchWithProxy_degrades (env : FetchEnv) (url method : String) (r : Response) :
    (env.direct = .ok r → r.isOk = true → isValidResponse r.body = false →
      fetchWithProxy env url method = tryProxies env (getPrioritizedProxies method) 0)
    ∧ (env.direct = .error () →
        (∀ i, i < (getPrioritizedProxies method).length → env.proxyAttempt i = .error ()) →
        fetchWithProxy env url method = fallback503)
    ∧ fallback503.status = 503
    ∧ jsonParse fallback503.body = some (.obj [("error", .str "All proxies failed")]) := by
  refine ⟨?_, ?_, rfl, rfl⟩
  · intro hdirect hok hvalid
    unfold fetchWithProxy
    rw [hdirect]
    dsimp only
    rw [if_neg (by simp [hvalid])]
    rw [if_neg ?_]
    have h2 : (200 ≤ r.status && r.status ≤ 299) = true := hok
    simp only [Bool.and_eq_true, decide_eq_true_eq] at h2
    omega
  · intro hdirect hall
    unfold fetchWithProxy
    rw [hdirect]
    exact tryProxies_all_error env _ 0 (fun i hi => by simpa using hall i hi)

/-- C3 witness environment: the direct fetch answers HTTP 200 with an HTML
error page, and every proxy attempt fails on the wire. -/
def envC3 : FetchEnv :=
  { direct := .ok { status := 200, statusText := "OK", body := "<html>error</html>" },
    proxyAttempt := fun _ => .error () }

/-- C3 witness environment for the total-failure path: the direct fetch
itself throws. -/
def envC3b : FetchEnv :=
  { direct := .error (), proxyAttempt := fun _ => .error () }

theorem fetchWithProxy_degrades_witness :
    fetchWithProxy envC3 "https://gamma-api.polymarket.com/positions" "GET"
      = tryProxies envC3 (getPrioritizedProxies "GET") 0
    ∧ fetchWithProxy envC3b "https://gamma-api.polymarket.com/positions" "GET"
      = fallback503 := by
  constructor
  · exact (fetchWithProxy_degrades envC3 "https://gamma-api.polymarket.com/positions" "GET"
      { status := 200, statusText := "OK", body := "<html>error</html>" }).1
      rfl rfl (by decide)
  · exact (fetchWithProxy_degrades envC3b "https://gamma-api.polymarket.com/positions" "GET"
      { status := 200, statusText := "OK", body := "" }).2.1
      rfl (fun i _ => rfl)

end PolyBot
